import Mathlib

/-!
Shallow embedding of the MCP protocol-explorer repository.

The repository holds two provider implementations (a plain one in
`MCP/server.py`, an enhanced one in `mcp_server_explorer.py`) and two
controller implementations (`MCP/client.py`, `mcp_client_explorer.py`).
Python `str` values are modelled as `List Char` (Python strings are
sequences of code points and slicing is per code point); Python `int` is
`Int`; fallible code returns `Except`.  Filesystem state that a handler
reads (existence, suffix, size, decoded text) is a `PyFile` record, so a
handler becomes a pure function of that record; a raised Python exception
is an `Except.error` carrying a `PyErr`.
-/

/-- Python clamped slice bound: for a sequence of length `n` and an index
`i`, the effective bound of `seq[i:…]`/`seq[…:i]` — `max 0 (n + i)` for a
negative `i`, `min i n` otherwise. -/
def pyBound (n : Nat) (i : Int) : Nat :=
  if i < 0 then ((n : Int) + i).toNat else min i.toNat n

/-- Python slice `l[s:e]` (step 1) on a list of code points. -/
def pySlice (l : List Char) (s e : Int) : List Char :=
  (l.take (pyBound l.length e)).drop (pyBound l.length s)

/-- Python slice `l[:e]`. -/
def pyTruncate {α : Type} (l : List α) (e : Int) : List α :=
  l.take (pyBound l.length e)

/-- Python's `needle in hay` on strings: substring containment. -/
def pyInStr (needle : List Char) : List Char → Bool
  | [] => needle.isEmpty
  | h :: t => needle.isPrefixOf (h :: t) || pyInStr needle t

/-- `CHUNK_SIZE = 1024`, shared by both servers. -/
def CHUNK_SIZE : Nat := 1024

/-- `MAX_FILE_SIZE = 10 * 1024 * 1024` (enhanced server only). -/
def MAX_FILE_SIZE : Nat := 10 * 1024 * 1024

/-- `ALLOWED_EXTENSIONS` of the enhanced server, in the order of the set
literal in the source (Python set iteration order is not specified; no
claim depends on the order, only on membership). -/
def ALLOWED_EXTENSIONS : List String :=
  [".txt", ".py", ".js", ".json", ".md", ".yaml", ".yml", ".xml", ".html", ".css"]

/-- Python `str.lower()` on a list of code points (`Char.toLower`, like
Python's, lowercases ASCII letters; no source string or extension relies
on non-ASCII case folding). -/
def pyLower (s : List Char) : List Char :=
  s.map Char.toLower

/-- The enhanced server's membership test
`path.suffix.lower() in ALLOWED_EXTENSIONS`. -/
def extAllowed (suffix : String) : Bool :=
  (ALLOWED_EXTENSIONS.map String.data).contains (pyLower suffix.data)

/-- The Python exceptions the sources raise or catch. -/
inductive PyErr where
  | indexError
  | attributeError
  | typeError
  | validationError
  | unicodeDecodeError
  | permissionError
  | osError
deriving DecidableEq

/-- Abstract rendering of Python `str(e)` for an exception: the sources
interpolate it into messages whose exact wording no claim inspects. -/
def pyErrStr : PyErr → List Char
  | .indexError => "list index out of range".data
  | .attributeError => "object has no attribute".data
  | .typeError => "argument must be a mapping".data
  | .validationError => "validation error for Root".data
  | .unicodeDecodeError => "codec can not decode byte".data
  | .permissionError => "Permission denied".data
  | .osError => "I/O error".data

/-- The filesystem facts a chunk handler reads about one path: the model of
`Path(file_path)` after `resolve()`.  `readable = false` means `read_text`
raises an `OSError`/`PermissionError`; `decodable = false` means the raw
bytes are not valid UTF-8, so a strict `read_text` raises
`UnicodeDecodeError` while `read_text(errors='replace')` still returns
`text` (with replacement characters already substituted). -/
structure PyFile where
  path : String
  name : String
  suffix : String
  is_file : Bool
  st_size : Nat
  readable : Bool
  decodable : Bool
  text : List Char
deriving DecidableEq

/-- `path.read_text()` with strict (default) decoding. -/
def read_text_strict (f : PyFile) : Except PyErr (List Char) :=
  if f.readable = false then .error .osError
  else if f.decodable = false then .error .unicodeDecodeError
  else .ok f.text

/-- `path.read_text(encoding='utf-8', errors='replace')`: decoding never
fails; only the read itself can raise. -/
def read_text_replace (f : PyFile) : Except PyErr (List Char) :=
  if f.readable = false then .error .permissionError
  else .ok f.text

/-- Whether an `Except` is an error (a raised exception in the model). -/
def exceptFailed {ε α : Type} : Except ε α → Bool
  | .error _ => true
  | .ok _ => false

/-- Chunk link `fs://chunk/{file_path}/{i}`, shared by both servers. -/
def chunkLink (file_path : String) (i : Nat) : List Char :=
  ("fs://chunk/" ++ file_path ++ "/" ++ toString i).data

namespace MCPServer

/-- The plain server's `get_file_chunk` (resource
`fs://chunk/{file_path}/{chunk_index}` in `MCP/server.py`): on a valid
file it returns `text[start:end]` when `start < len(text)` and the empty
string otherwise; the `try`/`except` turns a read failure into an error
message. -/
def get_file_chunk (f : PyFile) (chunk_index : Int) : List Char :=
  if f.is_file = false then
    ("Error: '" ++ f.path ++ "' is not a valid file").data
  else
    match read_text_strict f with
    | .error e => "Error reading chunk: ".data ++ pyErrStr e
    | .ok text =>
      let start := chunk_index * (CHUNK_SIZE : Int)
      if start < (text.length : Int) then pySlice text start (start + (CHUNK_SIZE : Int))
      else []

/-- The dictionary the plain server's `read_file_chunks` returns on
success. -/
structure ChunksMeta where
  file : String
  length : Nat
  chunk_size : Nat
  total_chunks : Nat
  chunks : List (List Char)
deriving DecidableEq

/-- The plain server's `read_file_chunks` (resource
`fs://chunks/{file_path}` in `MCP/server.py`): `total_chunks` is
`(len(text) + CHUNK_SIZE - 1) // CHUNK_SIZE`, with no minimum of 1. -/
def read_file_chunks (f : PyFile) : Except (List Char) ChunksMeta :=
  if f.is_file = false then
    .error ("'" ++ f.path ++ "' is not a valid file").data
  else
    match read_text_strict f with
    | .error e => .error ("Error processing file: ".data ++ pyErrStr e)
    | .ok text =>
      let total_chunks := (text.length + CHUNK_SIZE - 1) / CHUNK_SIZE
      .ok ⟨f.path, text.length, CHUNK_SIZE, total_chunks,
           (List.range total_chunks).map (chunkLink f.path)⟩

end MCPServer

namespace EnhServer

/-- Reason text of the enhanced server's disallowed-extension failure
(the `", ".join(ALLOWED_EXTENSIONS)` rendered in the list order of
`ALLOWED_EXTENSIONS`). -/
def extReason (suffix : String) : List Char :=
  ("File type '" ++ suffix ++ "' not supported. Allowed: "
    ++ String.intercalate ", " ALLOWED_EXTENSIONS).data

/-- Reason text of the enhanced server's file-too-large failure. -/
def tooLargeReason : List Char :=
  ("File too large. Maximum size: " ++ toString (MAX_FILE_SIZE / (1024 * 1024)) ++ "MB").data

/-- The enhanced `get_file_chunk`'s out-of-range error message; it carries
the unclamped count `(len(text) + CHUNK_SIZE - 1) // CHUNK_SIZE`. -/
def chunkMissingMsg (chunk_index : Int) (file_chunks : Nat) : List Char :=
  ("Error: Chunk " ++ toString chunk_index ++ " does not exist. File has "
    ++ toString file_chunks ++ " chunks.").data

/-- Python `str` of a `bool`. -/
def pyBool (b : Bool) : List Char :=
  if b then "True".data else "False".data

/-- Python `str` of the metadata dict built inside the enhanced
`get_file_chunk`. -/
def chunkMetaRender (chunk_index start_pos end_pos : Int) (chunk_length : Nat)
    (is_final : Bool) : List Char :=
  ("\x7b'chunk_index': " ++ toString chunk_index
    ++ ", 'start_pos': " ++ toString start_pos
    ++ ", 'end_pos': " ++ toString end_pos
    ++ ", 'chunk_length': " ++ toString chunk_length
    ++ ", 'is_final_chunk': ").data
  ++ pyBool is_final ++ "\x7d".data

/-- The success value of the enhanced `get_file_chunk`: the chunk content
wrapped between a metadata header and a content marker. -/
def wrapChunk (chunk_index : Int) (text : List Char) : List Char :=
  let start := chunk_index * (CHUNK_SIZE : Int)
  let stop := start + (CHUNK_SIZE : Int)
  let chunk_content := pySlice text start stop
  ("--- Chunk " ++ toString chunk_index ++ " Metadata ---\n").data
  ++ chunkMetaRender chunk_index start (min stop (text.length : Int))
       chunk_content.length (decide ((text.length : Int) ≤ stop))
  ++ "\n\n--- Chunk Content ---\n".data
  ++ chunk_content

/-- The enhanced server's `get_file_chunk` (resource
`fs://chunk/{file_path}/{chunk_index}` in `mcp_server_explorer.py`):
extension and size are checked first; `start >= len(text)` is an error
carrying `(len(text) + CHUNK_SIZE - 1) // CHUNK_SIZE`; a successful read
returns the wrapped chunk. -/
def get_file_chunk (f : PyFile) (chunk_index : Int) : List Char :=
  if f.is_file = false then
    ("Error: '" ++ f.path ++ "' is not a valid file or does not exist").data
  else if extAllowed f.suffix = false then
    "Error: ".data ++ extReason f.suffix
  else if MAX_FILE_SIZE < f.st_size then
    "Error: ".data ++ tooLargeReason
  else
    match read_text_replace f with
    | .error _ => ("Error: Permission denied reading '" ++ f.path ++ "'").data
    | .ok text =>
      if (text.length : Int) ≤ chunk_index * (CHUNK_SIZE : Int) then
        chunkMissingMsg chunk_index ((text.length + CHUNK_SIZE - 1) / CHUNK_SIZE)
      else wrapChunk chunk_index text

/-- Python `str.strip()`'s whitespace set. -/
def isPySpace (c : Char) : Bool :=
  c = ' ' || c = '\t' || c = '\n' || c = '\x0d' || c = '\x0b' || c = '\x0c'

/-- Python `str.strip()`: drop leading and trailing whitespace. -/
def pyStrip (l : List Char) : List Char :=
  ((l.dropWhile isPySpace).reverse.dropWhile isPySpace).reverse

/-- What one filesystem entry of `path.rglob("*")` looks like to
`search_files`: `readable = false` models a `stat` or `read_text` that
raises (`PermissionError`/`OSError`), which the loop skips. -/
structure SearchFile where
  is_file : Bool
  suffix : String
  st_size : Nat
  readable : Bool
  content : List Char
  rel_path : String
deriving DecidableEq

/-- The line scan inside `search_files`: the first 1-based line whose
lowercase form contains the lowered search text, paired with
`line.strip()[:100]`. -/
def matchLine (needle : List Char) : Nat → List (List Char) → Option (Nat × List Char)
  | _, [] => none
  | i, line :: rest =>
    if pyInStr needle (pyLower line) then some (i, (pyStrip line).take 100)
    else matchLine needle (i + 1) rest

/-- One matching-file entry of `search_files`:
`"ğŸ“„ {rel}"`, extended with the matching line when one was found and its
stripped form is truthy (a non-empty string). -/
def matchEntry (needle : List Char) (f : SearchFile) : List Char :=
  let base := "ğŸ“„ ".data ++ f.rel_path.data
  match matchLine needle 1 (f.content.splitOn '\n') with
  | some (i, ml) =>
    if ml = [] then base
    else base ++ (" (line " ++ toString i ++ ": ").data ++ ml ++ ")".data
  | none => base

/-- The collection loop of `search_files` over the `rglob` sequence,
carrying `matching_files` and `searched_count`: it breaks as soon as
`len(matching_files) >= max_results`, skips non-files, disallowed
extensions, oversize and unreadable entries, and appends an entry for each
file whose lowered content contains the lowered search text. -/
def searchLoop (needle : List Char) (max_results : Int) :
    List SearchFile → List (List Char) → Nat → List (List Char) × Nat
  | [], matching_files, searched_count => (matching_files, searched_count)
  | f :: rest, matching_files, searched_count =>
    if max_results ≤ (matching_files.length : Int) then (matching_files, searched_count)
    else if f.is_file && extAllowed f.suffix then
      if MAX_FILE_SIZE < f.st_size then searchLoop needle max_results rest matching_files searched_count
      else if f.readable = false then searchLoop needle max_results rest matching_files searched_count
      else if pyInStr needle (pyLower f.content) then
        searchLoop needle max_results rest (matching_files ++ [matchEntry needle f]) (searched_count + 1)
      else searchLoop needle max_results rest matching_files (searched_count + 1)
    else searchLoop needle max_results rest matching_files searched_count

/-- The enhanced server's `search_files` tool: collect up to `max_results`
matching entries, then return either the no-match message or a header, the
matching entries truncated by `[:max_results]`, and a truncation note when
the collected count reached `max_results`. -/
def search_files (root_path : String) (is_dir : Bool) (files : List SearchFile)
    (search_text : List Char) (max_results : Int) : List (List Char) :=
  if is_dir = false then
    [("Error: '" ++ root_path ++ "' is not a valid directory").data]
  else
    let needle := pyLower search_text
    let res := searchLoop needle max_results files [] 0
    let matching_files := res.1
    let searched_count := res.2
    if matching_files = [] then
      ["No files contain '".data ++ search_text ++ "' in '".data ++ root_path.data
        ++ ("' (searched " ++ toString searched_count ++ " files)").data]
    else
      ("ğŸ” Found ".data ++ (toString matching_files.length).data
        ++ " files containing '".data ++ search_text
        ++ ("' (searched " ++ toString searched_count ++ " files):").data)
      :: pyTruncate matching_files max_results
      ++ (if max_results ≤ (matching_files.length : Int) then
            [("... (showing first " ++ toString max_results ++ " results)").data]
          else [])

/-- The dictionary the enhanced `read_file_chunks` returns on success (the
`file_info` sub-dictionary of wall-clock timestamps is presentational and
not part of the model). -/
structure EnhChunksMeta where
  file_path : String
  file_name : String
  file_size_bytes : Nat
  content_length : Nat
  chunk_size : Nat
  total_chunks : Nat
  chunks : List (List Char)
  preview : List Char
deriving DecidableEq

/-- The enhanced server's `read_file_chunks` (resource
`fs://chunks/{file_path}` in `mcp_server_explorer.py`): disallowed
extension and oversize fail before the content is read; `total_chunks` is
`max(1, (len(text) + CHUNK_SIZE - 1) // CHUNK_SIZE)`. -/
def read_file_chunks (f : PyFile) : Except (List Char) EnhChunksMeta :=
  if f.is_file = false then
    .error ("'" ++ f.path ++ "' is not a valid file").data
  else if extAllowed f.suffix = false then
    .error (extReason f.suffix)
  else if MAX_FILE_SIZE < f.st_size then
    .error tooLargeReason
  else
    match read_text_replace f with
    | .error _ => .error ("Permission denied accessing '" ++ f.path ++ "'").data
    | .ok text =>
      let total_chunks := max 1 ((text.length + CHUNK_SIZE - 1) / CHUNK_SIZE)
      .ok ⟨f.path, f.name, f.st_size, text.length, CHUNK_SIZE, total_chunks,
           (List.range total_chunks).map (chunkLink f.path),
           if 200 < text.length then text.take 200 ++ "...".data else text⟩

end EnhServer

/-- Message content of a sampling message or result: `TextContent` or
`ImageContent` of `mcp.types`.  Accessing `.text` on image content raises
`AttributeError` in Python; the handlers model that explicitly. -/
inductive MsgContent where
  | text (t : List Char)
  | image (data : List Char)
deriving DecidableEq

/-- `mcp.types.SamplingMessage`. -/
structure SamplingMessage where
  role : String
  content : MsgContent
deriving DecidableEq

/-- `mcp.types.CreateMessageResult`. -/
structure CreateMessageResult where
  role : String
  content : MsgContent
  model : String
  stopReason : Option String
deriving DecidableEq

/-- `mcp.types.Root`: a URI plus an optional name. -/
structure Root where
  uri : String
  name : Option String
deriving DecidableEq

/-- The metadata object attached to a `create_message` request, as the
controller-side parse sees it: absent (`None`), a dict that validates as a
`Root`, or any other payload. -/
inductive SamplingMeta where
  | noMeta
  | rootMeta (uri : String) (name : Option String)
  | otherMeta
deriving DecidableEq

/-- The pydantic construction `Root(**metadata)`: `TypeError` when the
metadata is `None` (`**` of a non-mapping), `ValidationError` when the
dict does not validate as a `Root`, the parsed `Root` otherwise.  Which
dicts validate is abstracted into the `SamplingMeta` constructor. -/
def tryRootParse : SamplingMeta → Except PyErr Root
  | .noMeta => .error .typeError
  | .rootMeta uri name => .ok ⟨uri, name⟩
  | .otherMeta => .error .validationError

/-- `mcp.types.CreateMessageRequestParams`, restricted to the fields the
handlers read. -/
structure CreateMessageRequestParams where
  messages : List SamplingMessage
  metadata : SamplingMeta
deriving DecidableEq

namespace MCPClient

/-- The plain client's `handle_text_message`: it reads
`arguments.messages[0].content.text`, so an empty message list raises
`IndexError` and non-text first content raises `AttributeError`; neither
is caught here. -/
def handle_text_message (arguments : CreateMessageRequestParams) :
    Except PyErr CreateMessageResult :=
  match arguments.messages with
  | [] => .error .indexError
  | m :: _ =>
    match m.content with
    | .text message =>
      .ok ⟨"assistant",
           .text ("In: ".data ++ message ++ " Out: Hello, world! from model".data),
           "gpt-3.5-turbo", some "endTurn"⟩
    | .image _ => .error .attributeError

/-- The plain client's `handle_root_message`: a fixed fake listing; it
cannot raise. -/
def handle_root_message (root : Root) : CreateMessageResult :=
  ⟨"user", .text "- main.py\n- requirements.txt\n- utils/\n- README.md".data,
   "root-reader", none⟩

/-- The plain client's `handle_sampling_message` (the session's
`sampling_callback`): try `Root(**arguments.metadata)` and answer the root
request; on `ValidationError` or `TypeError` — the only errors the parse
raises — fall back to `handle_text_message`. -/
def handle_sampling_message (arguments : CreateMessageRequestParams) :
    Except PyErr CreateMessageResult :=
  match tryRootParse arguments.metadata with
  | .ok root => .ok (handle_root_message root)
  | .error _ => handle_text_message arguments

end MCPClient

namespace EnhClient

/-- Python `str` interpolation of an `Optional[str]` (`None` renders as
"None"). -/
def optName : Option String → String
  | some s => s
  | none => "None"

/-- The enhanced client's `handle_root_request`: a fixed listing for
`file://` URIs, an unavailability note otherwise; its own `try`/`except`
catches everything, so it cannot raise. -/
def handle_root_request (root : Root) : CreateMessageResult :=
  if pyInStr "file://".data root.uri.data then
    ⟨"user",
     .text ("📂 Root Directory Contents:\n📁 src/\n📁 docs/\n📁 tests/\n"
            ++ "📄 README.md\n📄 requirements.txt\n💻 main.py\n🔧 config.json").data,
     "root-reader-v2", none⟩
  else
    ⟨"user",
     .text ("📂 Contents of " ++ optName root.name
            ++ ":\n- Directory listing not available for " ++ root.uri).data,
     "root-reader-v2", none⟩

/-- The response the enhanced client's `handle_text_sampling` builds;
`now` is the `datetime.now()` rendering, supplied by the environment. -/
def textSamplingResult (now message_text : List Char) : CreateMessageResult :=
  ⟨"assistant",
   .text ("🤖 **Enhanced Client Response**\n\n📥 **Received:** ".data ++ message_text
          ++ "\n🕒 **Timestamp:** ".data ++ now
          ++ "\n🔧 **Client:** Enhanced-MCP-Agent v2.0.0\n\n✅ **Status:** Message processed successfully by autonomous agent".data),
   "enhanced-mcp-client-v2", some "endTurn"⟩

/-- The enhanced client's `handle_text_sampling`: an empty message list
falls back to a default text instead of indexing `messages[0]`; only a
non-text first content can raise (`AttributeError` on `.text`). -/
def handle_text_sampling (now : List Char) (arguments : CreateMessageRequestParams) :
    Except PyErr CreateMessageResult :=
  match arguments.messages with
  | [] => .ok (textSamplingResult now "Hello from the enhanced MCP client!".data)
  | m :: _ =>
    match m.content with
    | .text t => .ok (textSamplingResult now t)
    | .image _ => .error .attributeError

/-- The enhanced client's `sampling_callback`: when metadata is present
(truthy) try `Root(**arguments.metadata)` and answer the root request;
otherwise, or on `ValidationError`/`TypeError`, fall back to
`handle_text_sampling`. -/
def sampling_callback (now : List Char) (arguments : CreateMessageRequestParams) :
    Except PyErr CreateMessageResult :=
  match arguments.metadata with
  | .noMeta => handle_text_sampling now arguments
  | md =>
    match tryRootParse md with
    | .ok root => .ok (handle_root_request root)
    | .error _ => handle_text_sampling now arguments

end EnhClient

/-- The controller capabilities a provider-side gate consults:
`ClientCapabilities(sampling=…)`, `ClientCapabilities(roots=…)` and
`ClientCapabilities(experimental={"advanced_tools": …})` as negotiated at
initialization (`check_client_capability` of `mcp.server.session` tests
the requested fields against these). -/
structure ClientCaps where
  sampling : Bool
  roots : Bool
  experimental_advanced_tools : Bool
deriving DecidableEq

/-- A provider tool's execution, cut at its suspension point: either it
returns a string, or it raises, or it issues a `create_message` request to
the controller and continues with the controller's response (`none`
models a falsy response). -/
inductive ToolAction where
  | ret (value : List Char)
  | raised (e : PyErr)
  | createMessage (messages : List SamplingMessage) (max_tokens : Nat)
      (k : Option CreateMessageResult → ToolAction)

namespace MCPServer

/-- Continuation of the plain server's `check_sampling_capability` after
`create_message` returns: `response.content.text`, or a fixed message for
a falsy response; `.text` on image content raises and nothing catches
it. -/
def sampling_response (response : Option CreateMessageResult) : ToolAction :=
  match response with
  | some r =>
    match r.content with
    | .text t => .ret t
    | .image _ => .raised .attributeError
  | none => .ret "No response received.".data

/-- The plain server's `check_sampling_capability` tool: without a session
context, or when the controller's negotiated capabilities lack sampling,
it returns an error string and never issues `create_message`; otherwise it
sends the prompt as one user message with `max_tokens=100`. -/
def check_sampling_capability (context : Option ClientCaps) (prompt : List Char) :
    ToolAction :=
  match context with
  | none => .ret "Error: No session context available.".data
  | some caps =>
    if caps.sampling = false then
      .ret "Error: Client does not support sampling capability.".data
    else
      .createMessage [⟨"user", .text prompt⟩] 100 sampling_response

end MCPServer

namespace EnhServer

/-- Continuation of the enhanced `check_sampling_capability` after
`create_message` returns; the tool's `except Exception` turns the
`AttributeError` of `.text` on image content into an error string. -/
def sampling_response (response : Option CreateMessageResult) : ToolAction :=
  match response with
  | some r =>
    match r.content with
    | .text t =>
      .ret ("âœ… Sampling successful! Response: '".data ++ t.take 200 ++ "'".data)
    | .image _ => .ret ("Error during sampling: ".data ++ pyErrStr .attributeError)
  | none => .ret "âŒ No response received from sampling request.".data

/-- The enhanced server's `check_sampling_capability` tool: same gate as
the plain one, with the enhanced wording (the source file's literals are
double-encoded, hence the mojibake prefixes). -/
def check_sampling_capability (context : Option ClientCaps) (prompt : List Char) :
    ToolAction :=
  match context with
  | none => .ret "Error: No session context available.".data
  | some caps =>
    if caps.sampling = false then
      .ret "âŒ Error: Client does not support sampling capability.".data
    else
      .createMessage [⟨"user", .text prompt⟩] 100 sampling_response

end EnhServer

/-- Modelled from the spec: the fixed supported-version set — the constant
`SUPPORTED_PROTOCOL_VERSIONS` imported from `mcp.shared.version`, which is
library code outside this repository.  The membership test in the clients
is parametric in the set's elements, so their exact values decide no
claim. -/
def SUPPORTED_PROTOCOL_VERSIONS : List String :=
  ["2024-11-05", "2025-03-26"]

/-- Outcome of the tail of client initialization, after the `initialize`
response arrives: either a `RuntimeError` is raised — so the session is
torn down before the initialized notification and never reaches Ready —
or the `notifications/initialized` notification is sent. -/
inductive InitOutcome where
  | failed (message : List Char)
  | ready (notification : String)
deriving DecidableEq

namespace MCPClient

/-- The version check and acknowledgment at the end of the plain client's
`initialize` (`MCP/client.py`): a protocol version outside
`SUPPORTED_PROTOCOL_VERSIONS` raises before the initialized notification
is sent.  (The source names this function `initialize`.) -/
def initialize_handshake (result_protocolVersion : String) : InitOutcome :=
  if SUPPORTED_PROTOCOL_VERSIONS.contains result_protocolVersion = false then
    .failed ("Unsupported protocol version from the server: " ++ result_protocolVersion).data
  else
    .ready "notifications/initialized"

end MCPClient

namespace EnhClient

/-- The version check and acknowledgment at the end of the enhanced
client's `initialize_session` (`mcp_client_explorer.py`). -/
def initialize_session_check (result_protocolVersion : String) : InitOutcome :=
  if SUPPORTED_PROTOCOL_VERSIONS.contains result_protocolVersion = false then
    .failed ("Unsupported protocol version: " ++ result_protocolVersion).data
  else
    .ready "notifications/initialized"

end EnhClient


/-- A small readable text file: content "hi", one chunk. -/
def exampleTxt : PyFile :=
  ⟨"notes.txt", "notes.txt", ".txt", true, 2, true, true, "hi".data⟩

/-- A readable text file with empty content. -/
def exampleEmpty : PyFile :=
  ⟨"empty.txt", "empty.txt", ".txt", true, 0, true, true, []⟩

/-- A 20 MB file with a disallowed extension (over the enhanced server's
ceiling and outside its allowed set; the plain server checks neither). -/
def exampleBigExe : PyFile :=
  ⟨"tool.exe", "tool.exe", ".exe", true, 20971520, true, true, "MZ".data⟩

/-- A small allowed-extension file whose raw bytes are not valid UTF-8:
strict decoding fails, `errors='replace'` yields replacement characters. -/
def exampleUndecodable : PyFile :=
  ⟨"data.txt", "data.txt", ".txt", true, 4, true, false, "a�b".data⟩

/-- A readable text file with 1500 characters: two chunks. -/
def exampleLong : PyFile :=
  ⟨"long.txt", "long.txt", ".txt", true, 1500, true, true, List.replicate 1500 'a'⟩

lemma pyBound_natCast (n i : Nat) : pyBound n (i : Int) = min i n := by
  simp [pyBound]

lemma pySlice_natCast (l : List Char) (s e : Nat) :
    pySlice l (s : Int) (e : Int) = (l.take e).drop s := by
  unfold pySlice
  rw [pyBound_natCast, pyBound_natCast]
  rcases le_total e l.length with he | he
  · rw [min_eq_left he]
    rcases le_total s l.length with hs | hs
    · rw [min_eq_left hs]
    · have h1 : (l.take e).length ≤ l.length := by
        rw [List.length_take]
        exact min_le_right e l.length
      rw [min_eq_right hs, List.drop_eq_nil_of_le h1, List.drop_eq_nil_of_le (h1.trans hs)]
  · rw [min_eq_right he, List.take_of_length_le he, List.take_length]
    rcases le_total s l.length with hs | hs
    · rw [min_eq_left hs]
    · rw [min_eq_right hs, List.drop_eq_nil_of_le le_rfl, List.drop_eq_nil_of_le hs]

lemma pySlice_add (l : List Char) (s k : Nat) :
    pySlice l (s : Int) ((s : Int) + (k : Int)) = (l.drop s).take k := by
  have h : ((s : Int) + (k : Int)) = ((s + k : Nat) : Int) := by push_cast; ring
  rw [h, pySlice_natCast, List.take_drop]

/-- Concatenating the `CHUNK_SIZE`-sized slices `0 .. c-1` of a list, where
`c` is the ceiling chunk count, gives the list back. -/
lemma join_chunkSlices :
    ∀ (c : Nat) (l : List Char), c = (l.length + CHUNK_SIZE - 1) / CHUNK_SIZE →
      ((List.range c).map (fun i => (l.drop (i * CHUNK_SIZE)).take CHUNK_SIZE)).flatten = l := by
  intro c
  induction c with
  | zero =>
    intro l h
    have hlen : l.length = 0 := by
      simp only [CHUNK_SIZE] at h
      omega
    simp [List.length_eq_zero.mp hlen]
  | succ c ih =>
    intro l h
    rw [List.range_succ_eq_map]
    simp only [List.map_cons, List.flatten_cons, List.map_map]
    have hmap : ((fun i => (l.drop (i * CHUNK_SIZE)).take CHUNK_SIZE) ∘ Nat.succ)
        = fun i => ((l.drop CHUNK_SIZE).drop (i * CHUNK_SIZE)).take CHUNK_SIZE := by
      funext i
      simp only [Function.comp_apply, List.drop_drop]
      congr 2
      rw [Nat.succ_mul]
      ring
    rw [hmap, ih (l.drop CHUNK_SIZE)
        (by simp only [List.length_drop, CHUNK_SIZE] at h ⊢; omega)]
    simp [List.take_append_drop]

/-- The plain server's `get_file_chunk` at an in-range natural index is the
raw `CHUNK_SIZE`-sized slice at that index. -/
lemma MCPServer.get_file_chunk_in_range (f : PyFile) (hf : f.is_file = true)
    (hr : f.readable = true) (hd : f.decodable = true)
    (i : Nat) (hi : i * CHUNK_SIZE < f.text.length) :
    MCPServer.get_file_chunk f (i : Int) = (f.text.drop (i * CHUNK_SIZE)).take CHUNK_SIZE := by
  unfold MCPServer.get_file_chunk read_text_strict
  simp only [hf, hr, hd]
  have hcond : ((i : Int) * (CHUNK_SIZE : Int) < (f.text.length : Int)) := by
    exact_mod_cast hi
  have hcast : (i : Int) * (CHUNK_SIZE : Int) = ((i * CHUNK_SIZE : Nat) : Int) := by
    push_cast
    ring
  have hcond2 : (((i * CHUNK_SIZE : Nat) : Int) < (f.text.length : Int)) := by
    exact_mod_cast hi
  simp only [Bool.true_eq_false, if_false, reduceCtorEq, hcond, if_true, hcast,
    pySlice_add, hcond2]

/-- C1 counterexample: on the plain server, the file "hi" has total chunk
count 1, yet `get_file_chunk` at index 1 returns the empty string — an
empty-content success, not an error carrying the chunk count. -/
theorem C1_counterexample :
    (MCPServer.read_file_chunks exampleTxt).toOption.map MCPServer.ChunksMeta.total_chunks
        = some 1
      ∧ MCPServer.get_file_chunk exampleTxt 1 = []
      ∧ "Error".data.isPrefixOf (MCPServer.get_file_chunk exampleTxt 1) = false := by
  decide

/-- C1 (amended): for a readable, allowed, small-enough file and any
natural chunk index at or beyond the ceiling count
`(L + CHUNK_SIZE - 1) / CHUNK_SIZE`, the enhanced server's
`get_file_chunk` returns the out-of-range error message carrying that
ceiling count, while the plain server returns the empty string (an empty
success). -/
theorem C1_chunk_out_of_range (f : PyFile) (idx : Nat)
    (hf : f.is_file = true) (hr : f.readable = true) (hd : f.decodable = true)
    (hext : extAllowed f.suffix = true)
    (hsize : f.st_size ≤ MAX_FILE_SIZE)
    (hidx : (f.text.length + CHUNK_SIZE - 1) / CHUNK_SIZE ≤ idx) :
    EnhServer.get_file_chunk f (idx : Int)
        = EnhServer.chunkMissingMsg (idx : Int)
            ((f.text.length + CHUNK_SIZE - 1) / CHUNK_SIZE)
      ∧ MCPServer.get_file_chunk f (idx : Int) = [] := by
  have harith : f.text.length ≤ idx * CHUNK_SIZE := by
    simp only [CHUNK_SIZE] at hidx ⊢
    omega
  have hc : (f.text.length : Int) ≤ (idx : Int) * (CHUNK_SIZE : Int) := by
    exact_mod_cast harith
  constructor
  · unfold EnhServer.get_file_chunk read_text_replace
    rw [hf, hext, hr]
    simp [hc, Nat.not_lt.mpr hsize]
  · unfold MCPServer.get_file_chunk read_text_strict
    rw [hf, hr, hd]
    simp [Int.not_lt.mpr hc]

/-- C1 witness: the amended theorem applied to the file "hi" at index 1. -/
theorem C1_witness :
    (exampleTxt.text.length + CHUNK_SIZE - 1) / CHUNK_SIZE ≤ 1
      ∧ (EnhServer.get_file_chunk exampleTxt ((1 : Nat) : Int)
            = EnhServer.chunkMissingMsg ((1 : Nat) : Int)
                ((exampleTxt.text.length + CHUNK_SIZE - 1) / CHUNK_SIZE)
          ∧ MCPServer.get_file_chunk exampleTxt ((1 : Nat) : Int) = []) :=
  ⟨by decide,
   C1_chunk_out_of_range exampleTxt 1 rfl rfl rfl (by decide) (by decide) (by decide)⟩

/-- C2 counterexample: on the enhanced server the file "hi" has
`total_chunks = 1`, but concatenating the values `get_file_chunk` returns
for indices `0 .. total_chunks - 1` does not reproduce the content — each
value carries a metadata header before the chunk content. -/
theorem C2_counterexample :
    (EnhServer.read_file_chunks exampleTxt).toOption.map EnhServer.EnhChunksMeta.total_chunks
        = some 1
      ∧ ((List.range 1).map (fun i : Nat => EnhServer.get_file_chunk exampleTxt (i : Int))).flatten
          ≠ exampleTxt.text := by
  decide

/-- C2 (amended): for every readable file, on the plain server,
concatenating the values `get_file_chunk` returns for indices
`0 .. total_chunks - 1` — `total_chunks` as reported by
`read_file_chunks` — reproduces the file's text exactly. -/
theorem C2_roundtrip_plain (f : PyFile)
    (hf : f.is_file = true) (hr : f.readable = true) (hd : f.decodable = true) :
    ∃ meta, MCPServer.read_file_chunks f = .ok meta
      ∧ ((List.range meta.total_chunks).map
            (fun i : Nat => MCPServer.get_file_chunk f (i : Int))).flatten = f.text := by
  have hm : MCPServer.read_file_chunks f
      = .ok ⟨f.path, f.text.length, CHUNK_SIZE,
             (f.text.length + CHUNK_SIZE - 1) / CHUNK_SIZE,
             (List.range ((f.text.length + CHUNK_SIZE - 1) / CHUNK_SIZE)).map (chunkLink f.path)⟩ := by
    unfold MCPServer.read_file_chunks read_text_strict
    rw [hf, hr, hd]
    simp
  refine ⟨_, hm, ?_⟩
  have hcongr : (List.range ((f.text.length + CHUNK_SIZE - 1) / CHUNK_SIZE)).map
      (fun i : Nat => MCPServer.get_file_chunk f (i : Int))
      = (List.range ((f.text.length + CHUNK_SIZE - 1) / CHUNK_SIZE)).map
          (fun i => (f.text.drop (i * CHUNK_SIZE)).take CHUNK_SIZE) := by
    refine List.map_congr_left fun i hi => ?_
    refine MCPServer.get_file_chunk_in_range f hf hr hd i ?_
    have hi2 := List.mem_range.mp hi
    simp only [CHUNK_SIZE] at hi2 ⊢
    omega
  simp only []
  rw [hcongr, join_chunkSlices _ f.text rfl]

/-- C2 witness: the plain-server round trip on the file "hi". -/
theorem C2_witness :
    ∃ meta, MCPServer.read_file_chunks exampleTxt = .ok meta
      ∧ ((List.range meta.total_chunks).map
            (fun i : Nat => MCPServer.get_file_chunk exampleTxt (i : Int))).flatten
          = exampleTxt.text :=
  C2_roundtrip_plain exampleTxt rfl rfl rfl

/-- C3 counterexample: for empty content the plain server's
`read_file_chunks` reports `total_chunks = 0`, not the claimed minimum
of 1. -/
theorem C3_counterexample :
    (MCPServer.read_file_chunks exampleEmpty).toOption.map MCPServer.ChunksMeta.total_chunks
      = some 0 := by
  decide

/-- C3 (amended): for a readable file of content length `L`, the plain
server's `read_file_chunks` reports `total_chunks = ⌈L / CHUNK_SIZE⌉`
with no minimum, the enhanced server's reports
`max 1 ⌈L / CHUNK_SIZE⌉`, and for nonempty content the final chunk the
plain `get_file_chunk` returns has length
`L - CHUNK_SIZE * (total_chunks - 1)`, which is at most `CHUNK_SIZE`. -/
theorem C3_total_chunks_and_final (f : PyFile)
    (hf : f.is_file = true) (hr : f.readable = true) (hd : f.decodable = true) :
    ∃ pmeta, MCPServer.read_file_chunks f = .ok pmeta
      ∧ pmeta.total_chunks = (f.text.length + CHUNK_SIZE - 1) / CHUNK_SIZE
      ∧ (extAllowed f.suffix = true → f.st_size ≤ MAX_FILE_SIZE →
          ∃ emeta, EnhServer.read_file_chunks f = .ok emeta
            ∧ emeta.total_chunks = max 1 ((f.text.length + CHUNK_SIZE - 1) / CHUNK_SIZE))
      ∧ (0 < f.text.length →
          (MCPServer.get_file_chunk f ((pmeta.total_chunks - 1 : Nat) : Int)).length
              = f.text.length - CHUNK_SIZE * (pmeta.total_chunks - 1)
            ∧ f.text.length - CHUNK_SIZE * (pmeta.total_chunks - 1) ≤ CHUNK_SIZE) := by
  have hm : MCPServer.read_file_chunks f
      = .ok ⟨f.path, f.text.length, CHUNK_SIZE,
             (f.text.length + CHUNK_SIZE - 1) / CHUNK_SIZE,
             (List.range ((f.text.length + CHUNK_SIZE - 1) / CHUNK_SIZE)).map (chunkLink f.path)⟩ := by
    unfold MCPServer.read_file_chunks read_text_strict
    rw [hf, hr, hd]
    simp
  refine ⟨_, hm, rfl, ?_, ?_⟩
  · intro hext hsize
    have hm2 : EnhServer.read_file_chunks f
        = .ok ⟨f.path, f.name, f.st_size, f.text.length, CHUNK_SIZE,
               max 1 ((f.text.length + CHUNK_SIZE - 1) / CHUNK_SIZE),
               (List.range (max 1 ((f.text.length + CHUNK_SIZE - 1) / CHUNK_SIZE))).map
                 (chunkLink f.path),
               if 200 < f.text.length then f.text.take 200 ++ "...".data else f.text⟩ := by
      unfold EnhServer.read_file_chunks read_text_replace
      rw [hf, hext, hr]
      simp [Nat.not_lt.mpr hsize]
    exact ⟨_, hm2, rfl⟩
  · intro hL
    have hin : ((f.text.length + CHUNK_SIZE - 1) / CHUNK_SIZE - 1) * CHUNK_SIZE
        < f.text.length := by
      simp only [CHUNK_SIZE] at hL ⊢
      omega
    rw [MCPServer.get_file_chunk_in_range f hf hr hd _ hin, List.length_take,
      List.length_drop]
    simp only [CHUNK_SIZE] at hL ⊢
    omega

/-- C3 witness: the amended statement at a 1500-character two-chunk
file. -/
theorem C3_witness :
    ∃ pmeta, MCPServer.read_file_chunks exampleLong = .ok pmeta
      ∧ pmeta.total_chunks = (exampleLong.text.length + CHUNK_SIZE - 1) / CHUNK_SIZE
      ∧ (extAllowed exampleLong.suffix = true → exampleLong.st_size ≤ MAX_FILE_SIZE →
          ∃ emeta, EnhServer.read_file_chunks exampleLong = .ok emeta
            ∧ emeta.total_chunks
                = max 1 ((exampleLong.text.length + CHUNK_SIZE - 1) / CHUNK_SIZE))
      ∧ (0 < exampleLong.text.length →
          (MCPServer.get_file_chunk exampleLong ((pmeta.total_chunks - 1 : Nat) : Int)).length
              = exampleLong.text.length - CHUNK_SIZE * (pmeta.total_chunks - 1)
            ∧ exampleLong.text.length - CHUNK_SIZE * (pmeta.total_chunks - 1) ≤ CHUNK_SIZE) :=
  C3_total_chunks_and_final exampleLong rfl rfl rfl

/-- C8: for a readable, allowed, small-enough file with empty content, the
enhanced `read_file_chunks` reports `total_chunks = 1`, yet
`get_file_chunk` at index 0 takes the out-of-range branch and reports the
unclamped count 0 in its error message — an index strictly below the
reported total is rejected. -/
theorem C8_empty_content_mismatch (f : PyFile)
    (hf : f.is_file = true) (hr : f.readable = true)
    (hext : extAllowed f.suffix = true) (hsize : f.st_size ≤ MAX_FILE_SIZE)
    (hempty : f.text = []) :
    ∃ emeta, EnhServer.read_file_chunks f = .ok emeta
      ∧ emeta.total_chunks = 1
      ∧ EnhServer.get_file_chunk f 0 = EnhServer.chunkMissingMsg 0 0 := by
  have hm2 : EnhServer.read_file_chunks f
      = .ok ⟨f.path, f.name, f.st_size, f.text.length, CHUNK_SIZE,
             max 1 ((f.text.length + CHUNK_SIZE - 1) / CHUNK_SIZE),
             (List.range (max 1 ((f.text.length + CHUNK_SIZE - 1) / CHUNK_SIZE))).map
               (chunkLink f.path),
             if 200 < f.text.length then f.text.take 200 ++ "...".data else f.text⟩ := by
    unfold EnhServer.read_file_chunks read_text_replace
    rw [hf, hext, hr]
    simp [Nat.not_lt.mpr hsize]
  refine ⟨_, hm2, ?_, ?_⟩
  · simp [hempty, CHUNK_SIZE]
  · unfold EnhServer.get_file_chunk read_text_replace
    rw [hf, hext, hr]
    simp [Nat.not_lt.mpr hsize, hempty, CHUNK_SIZE]

/-- C8 witness: the empty `.txt` file. -/
theorem C8_witness :
    ∃ emeta, EnhServer.read_file_chunks exampleEmpty = .ok emeta
      ∧ emeta.total_chunks = 1
      ∧ EnhServer.get_file_chunk exampleEmpty 0 = EnhServer.chunkMissingMsg 0 0 :=
  C8_empty_content_mismatch exampleEmpty rfl rfl (by decide) (by decide) rfl

/-- C9: neither server rejects a negative `chunk_index`: the start offset
`chunk_index * CHUNK_SIZE` is negative, so the out-of-range comparison
against the content length passes and both servers return their success
value built from the Python slice; in particular, index `-2` on content
longer than one chunk gives the plain server's raw slice
`text[len-2048 : len-1024]` (with clamping), which is non-empty. -/
theorem C9_negative_index_accepted (f : PyFile) (idx : Int)
    (hf : f.is_file = true) (hr : f.readable = true) (hd : f.decodable = true)
    (hext : extAllowed f.suffix = true) (hsize : f.st_size ≤ MAX_FILE_SIZE)
    (hneg : idx < 0) :
    MCPServer.get_file_chunk f idx
        = pySlice f.text (idx * (CHUNK_SIZE : Int)) (idx * (CHUNK_SIZE : Int) + (CHUNK_SIZE : Int))
      ∧ EnhServer.get_file_chunk f idx = EnhServer.wrapChunk idx f.text
      ∧ (idx = -2 → CHUNK_SIZE < f.text.length →
          MCPServer.get_file_chunk f idx
              = (f.text.take (f.text.length - CHUNK_SIZE)).drop (f.text.length - 2 * CHUNK_SIZE)
            ∧ MCPServer.get_file_chunk f idx ≠ []) := by
  have hstart : idx * ((CHUNK_SIZE : Nat) : Int) < (f.text.length : Int) := by
    have h1 : idx * ((CHUNK_SIZE : Nat) : Int) < 0 := by
      simp only [CHUNK_SIZE]
      push_cast
      omega
    exact lt_of_lt_of_le h1 (Int.natCast_nonneg _)
  have hplain : MCPServer.get_file_chunk f idx
      = pySlice f.text (idx * (CHUNK_SIZE : Int)) (idx * (CHUNK_SIZE : Int) + (CHUNK_SIZE : Int)) := by
    unfold MCPServer.get_file_chunk read_text_strict
    rw [hf, hr, hd]
    simp [hstart]
  refine ⟨hplain, ?_, ?_⟩
  · unfold EnhServer.get_file_chunk read_text_replace
    rw [hf, hext, hr]
    simp [Nat.not_lt.mpr hsize, Int.not_le.mpr hstart]
  · intro h2 hlen
    subst h2
    have e1 : pyBound f.text.length ((-2) * ((CHUNK_SIZE : Nat) : Int))
        = f.text.length - 2 * CHUNK_SIZE := by
      unfold pyBound
      simp only [CHUNK_SIZE]
      split
      · omega
      · omega
    have e2 : pyBound f.text.length ((-2) * ((CHUNK_SIZE : Nat) : Int) + ((CHUNK_SIZE : Nat) : Int))
        = f.text.length - CHUNK_SIZE := by
      unfold pyBound
      simp only [CHUNK_SIZE]
      split
      · omega
      · omega
    have hres : MCPServer.get_file_chunk f (-2)
        = (f.text.take (f.text.length - CHUNK_SIZE)).drop (f.text.length - 2 * CHUNK_SIZE) := by
      rw [hplain]
      unfold pySlice
      rw [e1, e2]
    refine ⟨hres, ?_⟩
    rw [hres]
    intro hnil
    have hlen0 := congrArg List.length hnil
    rw [List.length_drop, List.length_take, List.length_nil] at hlen0
    simp only [CHUNK_SIZE] at hlen hlen0
    omega

/-- C9 witness: index `-2` on the 1500-character file. -/
theorem C9_witness :
    MCPServer.get_file_chunk exampleLong (-2)
        = pySlice exampleLong.text ((-2) * (CHUNK_SIZE : Int)) ((-2) * (CHUNK_SIZE : Int) + (CHUNK_SIZE : Int))
      ∧ EnhServer.get_file_chunk exampleLong (-2) = EnhServer.wrapChunk (-2) exampleLong.text
      ∧ ((-2 : Int) = -2 → CHUNK_SIZE < exampleLong.text.length →
          MCPServer.get_file_chunk exampleLong (-2)
              = (exampleLong.text.take (exampleLong.text.length - CHUNK_SIZE)).drop
                  (exampleLong.text.length - 2 * CHUNK_SIZE)
            ∧ MCPServer.get_file_chunk exampleLong (-2) ≠ []) :=
  C9_negative_index_accepted exampleLong (-2) rfl rfl rfl (by decide) (by decide) (by decide)

/-- C6 counterexample: the plain server's describe returns chunk metadata
for a 20 MB `.exe` file (no size or type check), and the enhanced server's
describe returns chunk metadata for an undecodable file (it decodes with
`errors='replace'`), so neither failure the claim requires occurs. -/
theorem C6_counterexample :
    (MCPServer.read_file_chunks exampleBigExe).toOption.isSome = true
      ∧ (EnhServer.read_file_chunks exampleUndecodable).toOption.isSome = true := by
  decide

/-- C6 (amended): at describe time the enhanced server fails with the
typed extension reason for a disallowed type and with the typed size
reason above the ceiling, but undecodable content does not fail (it is
replacement-decoded and described); the plain server checks neither size
nor type, and fails on undecodable content only through its generic
exception handler. -/
theorem C6_describe_rejections (f : PyFile)
    (hf : f.is_file = true) (hr : f.readable = true) :
    (extAllowed f.suffix = false →
        EnhServer.read_file_chunks f = .error (EnhServer.extReason f.suffix))
      ∧ (extAllowed f.suffix = true → MAX_FILE_SIZE < f.st_size →
          EnhServer.read_file_chunks f = .error EnhServer.tooLargeReason)
      ∧ (extAllowed f.suffix = true → f.st_size ≤ MAX_FILE_SIZE →
          (EnhServer.read_file_chunks f).toOption.isSome = true)
      ∧ (f.decodable = false →
          MCPServer.read_file_chunks f
            = .error ("Error processing file: ".data ++ pyErrStr PyErr.unicodeDecodeError)) := by
  refine ⟨?_, ?_, ?_, ?_⟩
  · intro hext
    unfold EnhServer.read_file_chunks
    rw [hf, hext]
    simp
  · intro hext hbig
    unfold EnhServer.read_file_chunks
    rw [hf, hext]
    simp [hbig]
  · intro hext hsize
    unfold EnhServer.read_file_chunks read_text_replace
    rw [hf, hext, hr]
    simp [Nat.not_lt.mpr hsize, Except.toOption]
  · intro hdec
    unfold MCPServer.read_file_chunks read_text_strict
    rw [hf, hr, hdec]
    simp

/-- C6 witness: the `.exe` file is rejected for its type by the enhanced
describe, while the undecodable `.txt` file is described by the enhanced
server and rejected by the plain server's generic handler. -/
theorem C6_witness :
    EnhServer.read_file_chunks exampleBigExe = .error (EnhServer.extReason exampleBigExe.suffix)
      ∧ (EnhServer.read_file_chunks exampleUndecodable).toOption.isSome = true
      ∧ MCPServer.read_file_chunks exampleUndecodable
          = .error ("Error processing file: ".data ++ pyErrStr PyErr.unicodeDecodeError) :=
  ⟨(C6_describe_rejections exampleBigExe rfl rfl).1 (by decide),
   (C6_describe_rejections exampleUndecodable rfl rfl).2.2.1 (by decide) (by decide),
   (C6_describe_rejections exampleUndecodable rfl rfl).2.2.2 rfl⟩

/-- C4: both servers' `check_sampling_capability` returns the
capability-unsupported error without issuing any `create_message` request
when the controller's negotiated capabilities lack sampling, and issues
the `create_message` request (one user message carrying the prompt,
`max_tokens = 100`) when sampling is present. -/
theorem C4_sampling_gate (caps : ClientCaps) (prompt : List Char) :
    (caps.sampling = false →
        MCPServer.check_sampling_capability (some caps) prompt
            = .ret "Error: Client does not support sampling capability.".data
          ∧ EnhServer.check_sampling_capability (some caps) prompt
            = .ret "âŒ Error: Client does not support sampling capability.".data)
      ∧ (caps.sampling = true →
          MCPServer.check_sampling_capability (some caps) prompt
              = .createMessage [⟨"user", .text prompt⟩] 100 MCPServer.sampling_response
            ∧ EnhServer.check_sampling_capability (some caps) prompt
              = .createMessage [⟨"user", .text prompt⟩] 100 EnhServer.sampling_response) := by
  constructor
  · intro h
    exact ⟨by simp [MCPServer.check_sampling_capability, h],
           by simp [EnhServer.check_sampling_capability, h]⟩
  · intro h
    exact ⟨by simp [MCPServer.check_sampling_capability, h],
           by simp [EnhServer.check_sampling_capability, h]⟩

/-- C4 witness: both branches at concrete capability sets. -/
theorem C4_witness :
    (MCPServer.check_sampling_capability (some ⟨false, true, true⟩) "Hi Model!".data
        = .ret "Error: Client does not support sampling capability.".data
      ∧ EnhServer.check_sampling_capability (some ⟨false, true, true⟩) "Hi Model!".data
        = .ret "âŒ Error: Client does not support sampling capability.".data)
      ∧ (MCPServer.check_sampling_capability (some ⟨true, true, true⟩) "Hi Model!".data
          = .createMessage [⟨"user", .text "Hi Model!".data⟩] 100 MCPServer.sampling_response
        ∧ EnhServer.check_sampling_capability (some ⟨true, true, true⟩) "Hi Model!".data
          = .createMessage [⟨"user", .text "Hi Model!".data⟩] 100 EnhServer.sampling_response) :=
  ⟨(C4_sampling_gate ⟨false, true, true⟩ "Hi Model!".data).1 rfl,
   (C4_sampling_gate ⟨true, true, true⟩ "Hi Model!".data).2 rfl⟩

/-- C5 counterexample: on the plain client, metadata that fails the root
parse together with an empty message list makes the fallback index
`messages[0]`, and the `IndexError` escapes the handler. -/
theorem C5_counterexample :
    MCPClient.handle_sampling_message ⟨[], SamplingMeta.otherMeta⟩
      = .error PyErr.indexError := by
  rfl

/-- C5 (amended): both controller-side handlers fall back to the plain
text path whenever the root parse of the metadata fails; the enhanced
client's fallback returns a result for an empty message list, but the
plain client's fallback raises `IndexError` out of the handler on an
empty message list. -/
theorem C5_parse_fallback (now : List Char) (args : CreateMessageRequestParams) :
    (exceptFailed (tryRootParse args.metadata) = true →
        MCPClient.handle_sampling_message args = MCPClient.handle_text_message args
          ∧ EnhClient.sampling_callback now args = EnhClient.handle_text_sampling now args)
      ∧ (args.messages = [] →
          ∃ r, EnhClient.sampling_callback now args = .ok r)
      ∧ (args.messages = [] → exceptFailed (tryRootParse args.metadata) = true →
          MCPClient.handle_sampling_message args = .error PyErr.indexError) := by
  obtain ⟨msgs, md⟩ := args
  refine ⟨?_, ?_, ?_⟩
  · intro hfail
    cases md with
    | noMeta => exact ⟨rfl, rfl⟩
    | rootMeta u n => simp [tryRootParse, exceptFailed] at hfail
    | otherMeta => exact ⟨rfl, rfl⟩
  · intro hmsgs
    subst hmsgs
    cases md with
    | noMeta => exact ⟨_, rfl⟩
    | rootMeta u n => exact ⟨_, rfl⟩
    | otherMeta => exact ⟨_, rfl⟩
  · intro hmsgs hfail
    subst hmsgs
    cases md with
    | noMeta => rfl
    | rootMeta u n => simp [tryRootParse, exceptFailed] at hfail
    | otherMeta => rfl

/-- C5 witness: unparsable metadata with an empty message list — the
enhanced client answers, the plain client raises. -/
theorem C5_witness :
    (MCPClient.handle_sampling_message ⟨[], SamplingMeta.otherMeta⟩
        = MCPClient.handle_text_message ⟨[], SamplingMeta.otherMeta⟩
      ∧ EnhClient.sampling_callback "T".data ⟨[], SamplingMeta.otherMeta⟩
        = EnhClient.handle_text_sampling "T".data ⟨[], SamplingMeta.otherMeta⟩)
      ∧ (∃ r, EnhClient.sampling_callback "T".data ⟨[], SamplingMeta.otherMeta⟩ = .ok r)
      ∧ MCPClient.handle_sampling_message ⟨[], SamplingMeta.otherMeta⟩
        = .error PyErr.indexError :=
  ⟨(C5_parse_fallback "T".data ⟨[], SamplingMeta.otherMeta⟩).1 (by decide),
   (C5_parse_fallback "T".data ⟨[], SamplingMeta.otherMeta⟩).2.1 rfl,
   (C5_parse_fallback "T".data ⟨[], SamplingMeta.otherMeta⟩).2.2 rfl (by decide)⟩

/-- C7: both clients raise an unsupported-version error — so the session
is torn down before the initialized notification is sent and Ready is
never reached — exactly when the negotiated protocol version is outside
the fixed supported-version set, and send the initialized notification
when it is inside. -/
theorem C7_version_gate (v : String) :
    (SUPPORTED_PROTOCOL_VERSIONS.contains v = false →
        MCPClient.initialize_handshake v
            = .failed ("Unsupported protocol version from the server: " ++ v).data
          ∧ EnhClient.initialize_session_check v
            = .failed ("Unsupported protocol version: " ++ v).data)
      ∧ (SUPPORTED_PROTOCOL_VERSIONS.contains v = true →
          MCPClient.initialize_handshake v = .ready "notifications/initialized"
            ∧ EnhClient.initialize_session_check v = .ready "notifications/initialized") := by
  constructor <;> intro h <;>
    exact ⟨by unfold MCPClient.initialize_handshake; rw [h]; simp,
           by unfold EnhClient.initialize_session_check; rw [h]; simp⟩

/-- C7 witness: an unknown version fails, a supported one acknowledges. -/
theorem C7_witness :
    (MCPClient.initialize_handshake "bogus"
        = .failed ("Unsupported protocol version from the server: " ++ "bogus").data
      ∧ EnhClient.initialize_session_check "bogus"
        = .failed ("Unsupported protocol version: " ++ "bogus").data)
      ∧ (MCPClient.initialize_handshake "2024-11-05" = .ready "notifications/initialized"
        ∧ EnhClient.initialize_session_check "2024-11-05" = .ready "notifications/initialized") :=
  ⟨(C7_version_gate "bogus").1 (by decide),
   (C7_version_gate "2024-11-05").2 (by decide)⟩

/-- The search loop never grows `matching_files` past
`max(acc, max_results)` entries. -/
lemma searchLoop_length_le (needle : List Char) (mr : Int) :
    ∀ (files : List EnhServer.SearchFile) (acc : List (List Char)) (sc : Nat),
      ((EnhServer.searchLoop needle mr files acc sc).1).length ≤ max acc.length mr.toNat := by
  intro files
  induction files with
  | nil =>
    intro acc sc
    simpa [EnhServer.searchLoop] using le_max_left acc.length mr.toNat
  | cons f rest ih =>
    intro acc sc
    unfold EnhServer.searchLoop
    by_cases h1 : mr ≤ (acc.length : Int)
    · rw [if_pos h1]
      exact le_max_left _ _
    · rw [if_neg h1]
      have hlt : acc.length + 1 ≤ mr.toNat := by omega
      by_cases h2 : (f.is_file && extAllowed f.suffix) = true
      · rw [if_pos h2]
        by_cases h3 : MAX_FILE_SIZE < f.st_size
        · rw [if_pos h3]
          exact ih acc sc
        · rw [if_neg h3]
          by_cases h4 : f.readable = false
          · rw [if_pos h4]
            exact ih acc sc
          · rw [if_neg h4]
            by_cases h5 : pyInStr needle (pyLower f.content) = true
            · rw [if_pos h5]
              refine le_trans (ih (acc ++ [EnhServer.matchEntry needle f]) (sc + 1)) ?_
              have hlen : (acc ++ [EnhServer.matchEntry needle f]).length = acc.length + 1 := by
                simp
              rw [hlen, max_eq_right hlt]
              exact le_max_right _ _
            · rw [if_neg h5]
              exact ih acc (sc + 1)
      · rw [if_neg h2]
        exact ih acc sc

/-- C10: the enhanced `search_files` collects at most
`max(0, max_results)` matching-file entries (the loop breaks once the
count reaches `max_results`, and the result slice is truncated by
`[:max_results]`), so the returned list holds at most `max_results`
matching entries and at most `2 + max_results` lines in all (header and
truncation note included). -/
theorem C10_search_results_bound (root_path : String) (is_dir : Bool)
    (files : List EnhServer.SearchFile) (search_text : List Char) (max_results : Int) :
    ((EnhServer.searchLoop (pyLower search_text) max_results files [] 0).1).length
        ≤ max_results.toNat
      ∧ (EnhServer.search_files root_path is_dir files search_text max_results).length
        ≤ 2 + max_results.toNat := by
  have hloop : ((EnhServer.searchLoop (pyLower search_text) max_results files [] 0).1).length
      ≤ max_results.toNat := by
    simpa using searchLoop_length_le (pyLower search_text) max_results files [] 0
  refine ⟨hloop, ?_⟩
  unfold EnhServer.search_files
  by_cases hd : is_dir = false
  · rw [if_pos hd]
    simp
    omega
  · rw [if_neg hd]
    dsimp only
    rcases hpair : EnhServer.searchLoop (pyLower search_text) max_results files [] 0
      with ⟨matching, sc⟩
    dsimp only
    have hmat : matching.length ≤ max_results.toNat := by
      have := hloop
      rw [hpair] at this
      exact this
    by_cases hm : matching = []
    · rw [if_pos hm]
      simp
      omega
    · rw [if_neg hm]
      have htr : (pyTruncate matching max_results).length ≤ matching.length := by
        unfold pyTruncate
        rw [List.length_take]
        exact min_le_right _ _
      by_cases htail : max_results ≤ (matching.length : Int)
      · rw [if_pos htail]
        simp only [List.length_cons, List.length_append, List.length_cons, List.length_nil]
        omega
      · rw [if_neg htail]
        simp only [List.length_cons, List.length_append, List.length_nil]
        omega
